import Mathlib

/-!
Shallow embedding of `pkg/proxy/endpoint.go` (stripe-cli webhook-forwarding
endpoint client).  Go strings are modelled as `List Char`; Go maps as
association lists with insert-replace semantics (unique keys, insertion
order standing in for iteration order); panics and fallible operations as
`Option`/`Except`.
-/

namespace Proxy

/-- A Go string, as its sequence of runes. -/
abbrev GoStr := List Char

/-- `reg.ReplaceAllString(header, "")` for `reg = [\x00-\x1f]+`: removes every
ASCII control character (U+0000–U+001F) from the string
(`endpoint.go` line 236). -/
def stripControl (s : GoStr) : GoStr :=
  s.filter (fun c => ¬ c.toNat ≤ 0x1f)

/-- `strings.SplitN(s, ":", 2)`: `none` when `s` contains no colon (in which
case Go returns a one-element slice and the subsequent `splitHeader[1]`
access panics); `some (before, after)` splits at the first colon. -/
def splitFirstColon : GoStr → Option (GoStr × GoStr)
  | [] => none
  | c :: rest =>
    if c = ':' then some ([], rest)
    else (splitFirstColon rest).map (fun p => (c :: p.1, p.2))

/-- Go `unicode.IsSpace` (the characters `strings.TrimSpace` trims). -/
def isGoSpace (c : Char) : Bool :=
  c.toNat = 0x20 ∨ (0x9 ≤ c.toNat ∧ c.toNat ≤ 0xD) ∨ c.toNat = 0x85 ∨
  c.toNat = 0xA0 ∨ c.toNat = 0x1680 ∨
  (0x2000 ≤ c.toNat ∧ c.toNat ≤ 0x200A) ∨ c.toNat = 0x2028 ∨
  c.toNat = 0x2029 ∨ c.toNat = 0x202F ∨ c.toNat = 0x205F ∨ c.toNat = 0x3000

/-- `strings.TrimSpace`: drop leading and trailing white space. -/
def trimSpace (s : GoStr) : GoStr :=
  ((s.dropWhile isGoSpace).reverse.dropWhile isGoSpace).reverse

/-- Go map assignment `m[k] = v` on an association-list model: replace the
value of an existing key in place, otherwise append the new binding. -/
def mapInsert {α β : Type} [DecidableEq α] : List (α × β) → α → β → List (α × β)
  | [], k, v => [(k, v)]
  | (k', v') :: rest, k, v =>
    if k' = k then (k, v) :: rest else (k', v') :: mapInsert rest k v

/-- Go map lookup `m[k]` (the found value, if any). -/
def mapLookup {α β : Type} [DecidableEq α] : List (α × β) → α → Option β
  | [], _ => none
  | (k', v') :: rest, k => if k' = k then some v' else mapLookup rest k

/-- One iteration of the loop of `convertToMapAndSanitize`
(`endpoint.go` lines 235–245): strip control characters, split on the first
colon — `none` models the index-out-of-range panic of `splitHeader[1]` when
there is no colon — trim key and value, store unless the key is empty. -/
def sanitizeStep (m : List (GoStr × GoStr)) (header : GoStr) :
    Option (List (GoStr × GoStr)) :=
  match splitFirstColon (stripControl header) with
  | none => none
  | some (k0, v0) =>
    let headerKey := trimSpace k0
    let headerVal := trimSpace v0
    some (if headerKey = [] then m else mapInsert m headerKey headerVal)

/-- `convertToMapAndSanitize` (`endpoint.go` lines 230–248), with `none`
modelling the runtime panic on an entry without a colon. -/
def convertToMapAndSanitize (headers : List GoStr) : Option (List (GoStr × GoStr)) :=
  headers.foldlM sanitizeStep []

/-- `convertToMap` (`endpoint.go` lines 221–228): builds the
`map[string]bool` event set, every inserted value being `true`. -/
def convertToMap (events : List GoStr) : List (GoStr × Bool) :=
  events.foldl (fun m e => mapInsert m e true) []

/-- Go map read `m[k]` on a `map[string]bool`: the zero value `false` when
the key is absent. -/
def mapGetBool (m : List (GoStr × Bool)) (k : GoStr) : Bool :=
  (mapLookup m k).getD false

/-- `net/textproto.validHeaderFieldByte`: the RFC 7230 token characters
(digits, letters, and the listed punctuation, written by code point). -/
def validHeaderFieldChar (c : Char) : Bool :=
  let n := c.toNat
  (0x30 ≤ n ∧ n ≤ 0x39) ∨ (0x41 ≤ n ∧ n ≤ 0x5A) ∨ (0x61 ≤ n ∧ n ≤ 0x7A) ∨
  n = 0x21 ∨ n = 0x23 ∨ n = 0x24 ∨ n = 0x25 ∨ n = 0x26 ∨ n = 0x27 ∨
  n = 0x2A ∨ n = 0x2B ∨ n = 0x2D ∨ n = 0x2E ∨ n = 0x5E ∨ n = 0x5F ∨
  n = 0x60 ∨ n = 0x7C ∨ n = 0x7E

/-- ASCII upper-casing of one character (`c -= 'a' - 'A'` in Go). -/
def asciiUpper (c : Char) : Char :=
  if 0x61 ≤ c.toNat ∧ c.toNat ≤ 0x7A then Char.ofNat (c.toNat - 0x20) else c

/-- ASCII lower-casing of one character (`c += 'a' - 'A'` in Go). -/
def asciiLower (c : Char) : Char :=
  if 0x41 ≤ c.toNat ∧ c.toNat ≤ 0x5A then Char.ofNat (c.toNat + 0x20) else c

/-- The case-mapping loop of `textproto.canonicalMIMEHeaderKey`: upper-case a
letter at the start or after a hyphen, lower-case it otherwise. -/
def canonCase : Bool → GoStr → GoStr
  | _, [] => []
  | upper, c :: rest =>
    let c' := if upper then asciiUpper c else asciiLower c
    c' :: canonCase (c' = '-') rest

/-- `textproto.CanonicalMIMEHeaderKey`: a key with any non-token character is
returned unchanged, otherwise it is case-canonicalized. -/
def canonicalMIMEHeaderKey (s : GoStr) : GoStr :=
  if s.all validHeaderFieldChar then canonCase true s else s

/-- `http.Header`: canonical key → ordered list of values. -/
abbrev Header := List (GoStr × List GoStr)

/-- `textproto.MIMEHeader.Add` after canonicalization: append the value to
the slice of an existing key, else append a fresh entry. -/
def headerAppendAt : Header → GoStr → GoStr → Header
  | [], ck, v => [(ck, [v])]
  | (k, vs) :: rest, ck, v =>
    if k = ck then (k, vs ++ [v]) :: rest else (k, vs) :: headerAppendAt rest ck v

/-- `http.Header.Add(k, v)` (`req.Header.Add` in `Post`/`PostV2`):
canonicalize the key, then append the value. -/
def headerAdd (h : Header) (k v : GoStr) : Header :=
  headerAppendAt h (canonicalMIMEHeaderKey k) v

/-- `http.Header.Values(k)`: all values stored under the canonicalized key,
in the order added (`[]` when absent). -/
def headerValues (h : Header) (k : GoStr) : List GoStr :=
  (mapLookup h (canonicalMIMEHeaderKey k)).getD []

/-- `strings.ToLower`, restricted to ASCII case-mapping.  The only use in
the source is the comparison `strings.ToLower(k) == "host"`, and no
non-ASCII rune is mapped by Go's Unicode lowering onto the letters
h, o, s, t, so the ASCII mapping decides that comparison identically. -/
def toLowerStr (s : GoStr) : GoStr :=
  s.map asciiLower

/-!  The request, response, error and configuration models. -/

/-- An opaque Go `error` value (identity only). -/
abbrev GoError := Nat

/-- `http.Request`, restricted to the fields `Post`/`PostV2` construct:
`http.NewRequest` yields an empty `Host` (derived from the URL at send time
unless overridden) and an empty header map. -/
structure GoRequest where
  method : GoStr
  url : GoStr
  body : GoStr
  host : GoStr
  header : Header
deriving DecidableEq

/-- An opaque `*http.Response` (identity only; the body is a resource whose
release `PostOutcome.bodyClosed` tracks). -/
structure GoResponse where
  id : Nat
deriving DecidableEq

/-- Modelled from the spec: `eventContext` is declared in a sibling file of
`pkg/proxy` that is not among the given sources; §3 gives
`{requestBody: bytes, requestHeaders: mapping string→string}`, matching the
field accesses `evtCtx.requestBody` / `evtCtx.requestHeaders` in
`endpoint.go` (the mapping as an association list in iteration order). -/
structure eventContext where
  requestBody : GoStr
  requestHeaders : List (GoStr × GoStr)
deriving DecidableEq

/-- `FailedToPostError` (`endpoint.go` lines 49–51): wraps the transport
error. -/
structure FailedToPostError where
  err : GoError
deriving DecidableEq

/-- `websocket.ErrorElement` as used here: carries the wrapped error. -/
structure ErrorElement where
  error : FailedToPostError
deriving DecidableEq

/-- An `io.Writer` capability: `io.Discard` or some other writer. -/
inductive GoWriter
  | discard
  | custom (id : Nat)
deriving DecidableEq

/-- `log.Logger`, restricted to its output sink. -/
structure GoLogger where
  out : GoWriter
deriving DecidableEq

/-- The `CheckRedirect` policy of an `http.Client`: `useLastResponse` models
the closure returning `http.ErrUseLastResponse` (do not follow redirects). -/
inductive RedirectPolicy
  | defaultFollow
  | useLastResponse
  | custom (id : Nat)
deriving DecidableEq

/-- `http.Client`, restricted to the fields `NewEndpointClient` sets. -/
structure GoHTTPClient where
  checkRedirect : RedirectPolicy
  timeout : Nat
deriving DecidableEq

/-- An `EndpointResponseHandler` value: the no-op
`EndpointResponseHandlerFunc(func(eventContext, string, *http.Response) {})`
or some caller-supplied handler. -/
inductive ResponseHandler
  | noop
  | custom (id : Nat)
deriving DecidableEq

/-- The identity of a `chan websocket.IElement`. -/
abbrev OutChannel := Nat

/-- `EndpointConfig` (`endpoint.go` lines 21–30); `none` models a nil field. -/
structure EndpointConfig where
  httpClient : Option GoHTTPClient
  log : Option GoLogger
  responseHandler : Option ResponseHandler
  outCh : Option OutChannel
deriving DecidableEq

/-- `EndpointClient` (`endpoint.go` lines 58–72). -/
structure EndpointClient where
  URL : GoStr
  headers : List (GoStr × GoStr)
  connect : Bool
  events : List (GoStr × Bool)
  cfg : EndpointConfig
  isEventDestination : Bool
deriving DecidableEq

/-- `SupportsEventType` (`endpoint.go` lines 76–87). -/
def SupportsEventType (c : EndpointClient) (connect : Bool) (eventType : GoStr) : Bool :=
  if connect ≠ c.connect then false
  else if mapGetBool c.events "*".toList || mapGetBool c.events eventType then true
  else false

/-- `SupportsContext` (`endpoint.go` lines 91–97). -/
def SupportsContext (c : EndpointClient) (context : GoStr) : Bool :=
  if c.connect then decide (context ≠ []) else decide (context = [])

/-- Everything observable about one `Post`/`PostV2` call: the returned
error, the sends attempted on the output channel (paired with the channel
sent on, `none` being a nil channel), the response-handler invocations, the
request handed to the transport, whether the response body was closed, and
how many debug-level log lines were written. -/
structure PostOutcome where
  ret : Option GoError
  emitted : List (Option OutChannel × ErrorElement)
  handlerCalls : List (eventContext × GoStr × GoResponse)
  sentRequest : Option GoRequest
  bodyClosed : Bool
  debugLogs : Nat
deriving DecidableEq

/-- `http.MethodPost`. -/
def methodPost : GoStr := "POST".toList

/-- The literal `"host"` compared against in `Post`/`PostV2`. -/
def hostStr : GoStr := "host".toList

/-- `Post` (`endpoint.go` lines 100–136).  `newRequestErr` is the result of
`http.NewRequest` (URL parsing is outside this package): `some err` when
construction fails.  `transport` is `c.cfg.HTTPClient.Do`. -/
def Post (c : EndpointClient) (evtCtx : eventContext) (newRequestErr : Option GoError)
    (transport : GoRequest → Except GoError GoResponse) : PostOutcome :=
  match newRequestErr with
  | some err =>
    { ret := some err, emitted := [], handlerCalls := [], sentRequest := none,
      bodyClosed := false, debugLogs := 1 }
  | none =>
    let req0 : GoRequest :=
      { method := methodPost, url := c.URL, body := evtCtx.requestBody,
        host := [], header := [] }
    let req1 := evtCtx.requestHeaders.foldl
      (fun r kv => { r with header := headerAdd r.header kv.1 kv.2 }) req0
    let req2 := c.headers.foldl
      (fun r kv =>
        if toLowerStr kv.1 = hostStr then { r with host := kv.2 }
        else { r with header := headerAdd r.header kv.1 kv.2 }) req1
    match transport req2 with
    | .error err =>
      { ret := some err, emitted := [(c.cfg.outCh, ⟨⟨err⟩⟩)], handlerCalls := [],
        sentRequest := some req2, bodyClosed := false, debugLogs := 1 }
    | .ok resp =>
      { ret := none, emitted := [], handlerCalls := [(evtCtx, c.URL, resp)],
        sentRequest := some req2, bodyClosed := true, debugLogs := 1 }

/-- `PostV2` (`endpoint.go` lines 139–170).  Identical construction;
`transport` here is `http.DefaultClient.Do`, and no debug line is logged. -/
def PostV2 (c : EndpointClient) (evtCtx : eventContext) (newRequestErr : Option GoError)
    (transport : GoRequest → Except GoError GoResponse) : PostOutcome :=
  match newRequestErr with
  | some err =>
    { ret := some err, emitted := [], handlerCalls := [], sentRequest := none,
      bodyClosed := false, debugLogs := 0 }
  | none =>
    let req0 : GoRequest :=
      { method := methodPost, url := c.URL, body := evtCtx.requestBody,
        host := [], header := [] }
    let req1 := evtCtx.requestHeaders.foldl
      (fun r kv => { r with header := headerAdd r.header kv.1 kv.2 }) req0
    let req2 := c.headers.foldl
      (fun r kv =>
        if toLowerStr kv.1 = hostStr then { r with host := kv.2 }
        else { r with header := headerAdd r.header kv.1 kv.2 }) req1
    match transport req2 with
    | .error err =>
      { ret := some err, emitted := [(c.cfg.outCh, ⟨⟨err⟩⟩)], handlerCalls := [],
        sentRequest := some req2, bodyClosed := false, debugLogs := 0 }
    | .ok resp =>
      { ret := none, emitted := [], handlerCalls := [(evtCtx, c.URL, resp)],
        sentRequest := some req2, bodyClosed := true, debugLogs := 0 }

/-- `time.Second` in nanoseconds. -/
def timeSecond : Nat := 1000000000

/-- `defaultTimeout` (`endpoint.go` line 214): `30 * time.Second`. -/
def defaultTimeout : Nat := 30 * timeSecond

/-- The empty `EndpointConfig{}` built when `cfg == nil`. -/
def emptyConfig : EndpointConfig :=
  { httpClient := none, log := none, responseHandler := none, outCh := none }

/-- The default logger `&log.Logger{Out: io.Discard}`. -/
def defaultLogger : GoLogger := { out := .discard }

/-- The default `http.Client` with `CheckRedirect` returning
`http.ErrUseLastResponse` and `Timeout: defaultTimeout`. -/
def defaultHTTPClient : GoHTTPClient :=
  { checkRedirect := .useLastResponse, timeout := defaultTimeout }

/-- `NewEndpointClient` (`endpoint.go` lines 177–207); `none` models the
panic propagated out of `convertToMapAndSanitize`. -/
def NewEndpointClient (url : GoStr) (headers : List GoStr) (connect : Bool)
    (events : List GoStr) (isEventDestination : Bool) (cfg0 : Option EndpointConfig) :
    Option EndpointClient :=
  let cfg1 := match cfg0 with
    | none => emptyConfig
    | some cfg => cfg
  let cfg2 := { cfg1 with log := some (cfg1.log.getD defaultLogger) }
  let cfg3 := { cfg2 with httpClient := some (cfg2.httpClient.getD defaultHTTPClient) }
  let cfg4 := { cfg3 with responseHandler := some (cfg3.responseHandler.getD .noop) }
  match convertToMapAndSanitize headers with
  | none => none
  | some headerMap =>
    some { URL := url, headers := headerMap, connect := connect,
           events := convertToMap events, cfg := cfg4,
           isEventDestination := isEventDestination }

/-!  The per-entry step of the spec's `normalizeHeaders` description, for
comparison with the code's `sanitizeStep`: strip control characters, split
on the first colon, trim key and value, discard an empty key, store with
last-write-wins. -/

/-- One entry of the spec's `normalizeHeaders` description (total: the split
at the first colon is by `takeWhile`/`dropWhile`, meaningful when a colon is
present). -/
def descStep (m : List (GoStr × GoStr)) (header : GoStr) : List (GoStr × GoStr) :=
  let h := stripControl header
  let k := trimSpace (h.takeWhile (fun c => c ≠ ':'))
  let v := trimSpace ((h.dropWhile (fun c => c ≠ ':')).drop 1)
  if k = [] then m else mapInsert m k v

/-- The spec's `normalizeHeaders` description applied to a whole sequence. -/
def normalizeHeadersDesc (headers : List GoStr) : List (GoStr × GoStr) :=
  headers.foldl descStep []

/-!  Supporting lemmas. -/

theorem colon_mem_stripControl {s : GoStr} (h : ':' ∈ s) : ':' ∈ stripControl s := by
  unfold stripControl
  rw [List.mem_filter]
  exact ⟨h, by decide⟩

theorem splitFirstColon_of_mem : ∀ {s : GoStr}, ':' ∈ s →
    splitFirstColon s =
      some (s.takeWhile (fun c => c ≠ ':'), (s.dropWhile (fun c => c ≠ ':')).drop 1) := by
  intro s h
  induction s with
  | nil => cases h
  | cons c rest ih =>
    by_cases hc : c = ':'
    · subst hc
      simp [splitFirstColon, List.takeWhile, List.dropWhile]
    · have hrest : ':' ∈ rest := by
        cases List.mem_cons.mp h with
        | inl h1 => exact absurd h1.symm hc
        | inr h2 => exact h2
      simp [splitFirstColon, hc, List.takeWhile, List.dropWhile, ih hrest]

theorem sanitizeStep_eq_descStep {h : GoStr} (hc : ':' ∈ h) (m : List (GoStr × GoStr)) :
    sanitizeStep m h = some (descStep m h) := by
  unfold sanitizeStep descStep
  rw [splitFirstColon_of_mem (colon_mem_stripControl hc)]

theorem convertToMapAndSanitize_go (headers : List GoStr) :
    ∀ m, (∀ h ∈ headers, ':' ∈ h) →
      List.foldlM sanitizeStep m headers = some (headers.foldl descStep m) := by
  induction headers with
  | nil => intro m _; rfl
  | cons h hs ih =>
    intro m hc
    rw [List.foldlM_cons, sanitizeStep_eq_descStep (hc h (List.mem_cons_self h hs)) m]
    simpa using ih (descStep m h) (fun x hx => hc x (List.mem_cons_of_mem h hx))

theorem mapLookup_mapInsert {α β : Type} [DecidableEq α]
    (m : List (α × β)) (k : α) (v : β) (k' : α) :
    mapLookup (mapInsert m k v) k' = if k' = k then some v else mapLookup m k' := by
  induction m with
  | nil =>
    by_cases h : k' = k
    · simp [mapInsert, mapLookup, h]
    · have h2 : ¬ k = k' := fun h' => h h'.symm
      simp [mapInsert, mapLookup, h, h2]
  | cons hd tl ih =>
    obtain ⟨a, b⟩ := hd
    by_cases h1 : a = k
    · subst h1
      by_cases h2 : k' = a
      · simp [mapInsert, mapLookup, h2]
      · have h3 : ¬ a = k' := fun h' => h2 h'.symm
        simp [mapInsert, mapLookup, h2, h3]
    · by_cases h2 : a = k'
      · subst h2
        simp [mapInsert, mapLookup, h1]
      · simp [mapInsert, mapLookup, h1, h2, ih]

theorem mapGetBool_convertToMap_go (raw : List GoStr) (k : GoStr) :
    ∀ m0, mapGetBool (raw.foldl (fun m e => mapInsert m e true) m0) k
      = (decide (k ∈ raw) || mapGetBool m0 k) := by
  induction raw with
  | nil => intro m0; simp
  | cons e es ih =>
    intro m0
    rw [List.foldl_cons, ih]
    unfold mapGetBool
    rw [mapLookup_mapInsert]
    by_cases h : k = e <;> simp [h, List.mem_cons]

theorem mapGetBool_convertToMap (raw : List GoStr) (k : GoStr) :
    mapGetBool (convertToMap raw) k = decide (k ∈ raw) := by
  unfold convertToMap
  rw [mapGetBool_convertToMap_go]
  simp [mapGetBool, mapLookup]

/-!  Claim theorems: header normalization and routing predicates. -/

/-- C1: the spec requires `convertToMapAndSanitize` to fail with an explicit
validation error on an entry without a colon, never an out-of-range fault.
The code instead evaluates `splitHeader[1]` on the one-element slice that
`strings.SplitN` returns for such an entry, an index-out-of-range panic
(modelled as `none`): on `["Bad-Header"]` the function faults and produces
no validation error. -/
theorem convertToMapAndSanitize_noColon_faults :
    convertToMapAndSanitize ["Bad-Header".toList] = none := by decide

/-- C5: on a sequence whose entries each contain a colon,
`convertToMapAndSanitize` computes exactly the spec's description: strip
ASCII control characters from each entry before storage, split at the first
colon, trim key and value, discard empty keys, resolve duplicates
last-write-wins. -/
theorem convertToMapAndSanitize_spec (headers : List GoStr)
    (hc : ∀ h ∈ headers, ':' ∈ h) :
    convertToMapAndSanitize headers = some (normalizeHeadersDesc headers) :=
  convertToMapAndSanitize_go headers [] hc

/-- Witness for C5 at the spec's own examples: duplicate keys resolve
last-write-wins and an embedded control character is stripped from the
stored value. -/
theorem convertToMapAndSanitize_spec_witness :
    convertToMapAndSanitize ["X-Foo: 1".toList, "X-Foo: 2".toList]
        = some (normalizeHeadersDesc ["X-Foo: 1".toList, "X-Foo: 2".toList]) ∧
      normalizeHeadersDesc ["X-Foo: 1".toList, "X-Foo: 2".toList]
        = [("X-Foo".toList, "2".toList)] ∧
      convertToMapAndSanitize ["X-Foo: a\x01b".toList]
        = some (normalizeHeadersDesc ["X-Foo: a\x01b".toList]) ∧
      normalizeHeadersDesc ["X-Foo: a\x01b".toList]
        = [("X-Foo".toList, "ab".toList)] :=
  ⟨convertToMapAndSanitize_spec _ (by decide), by decide,
   convertToMapAndSanitize_spec _ (by decide), by decide⟩

/-- C6: for a client whose event set was built by `convertToMap` from the
raw subscription list, `SupportsEventType` returns `true` exactly when the
request mode equals the client's connect mode and the subscriptions contain
the wildcard or the event type.  (The embedding is a pure function, so the
call has no side effects.) -/
theorem SupportsEventType_iff (raw : List GoStr) (c : EndpointClient)
    (hev : c.events = convertToMap raw) (rm : Bool) (et : GoStr) :
    SupportsEventType c rm et = true ↔
      (rm = c.connect ∧ ("*".toList ∈ raw ∨ et ∈ raw)) := by
  unfold SupportsEventType
  rw [hev, mapGetBool_convertToMap, mapGetBool_convertToMap]
  by_cases h : rm = c.connect <;> simp [h]

/-- Witness for C6: a wildcard-subscribed connect-mode client supports a
connect-mode event of any type. -/
theorem SupportsEventType_iff_witness :
    SupportsEventType ⟨[], [], true, convertToMap ["*".toList], emptyConfig, false⟩
      true "payment_intent.created".toList = true :=
  (SupportsEventType_iff ["*".toList]
      ⟨[], [], true, convertToMap ["*".toList], emptyConfig, false⟩ rfl
      true "payment_intent.created".toList).mpr ⟨rfl, Or.inl (by decide)⟩

/-- C7: `SupportsContext` returns `true` exactly when the client is in
connect mode and the context is non-empty, or the client is not in connect
mode and the context is empty. -/
theorem SupportsContext_iff (c : EndpointClient) (context : GoStr) :
    SupportsContext c context = true ↔
      ((c.connect = true ∧ context ≠ []) ∨ (c.connect = false ∧ context = [])) := by
  unfold SupportsContext
  cases h : c.connect <;> simp

/-!  The request construction shared by `Post` and `PostV2`, factored for
reasoning: the two header loops as folds on `(header, host)`. -/

/-- The event-header loop (`for k, v := range evtCtx.requestHeaders`). -/
def addEventHeaders (h : Header) (l : List (GoStr × GoStr)) : Header :=
  l.foldl (fun h kv => headerAdd h kv.1 kv.2) h

/-- The custom-header loop (`for k, v := range c.headers`) acting on the
pair of the request's header map and `Host` field. -/
def addCustomHeaders (s : Header × GoStr) (l : List (GoStr × GoStr)) : Header × GoStr :=
  l.foldl (fun s kv =>
    if toLowerStr kv.1 = hostStr then (s.1, kv.2)
    else (headerAdd s.1 kv.1 kv.2, s.2)) s

/-- The request `Post`/`PostV2` hand to the transport when construction
succeeds. -/
def postBuiltRequest (c : EndpointClient) (evtCtx : eventContext) : GoRequest :=
  let s := addCustomHeaders (addEventHeaders [] evtCtx.requestHeaders, []) c.headers
  { method := methodPost, url := c.URL, body := evtCtx.requestBody,
    host := s.2, header := s.1 }

theorem foldl_event_req (l : List (GoStr × GoStr)) :
    ∀ r : GoRequest,
      l.foldl (fun r kv => { r with header := headerAdd r.header kv.1 kv.2 }) r
        = { r with header := addEventHeaders r.header l } := by
  induction l with
  | nil => intro r; rfl
  | cons kv l ih =>
    intro r
    rw [List.foldl_cons, ih]
    rfl

theorem foldl_custom_req (l : List (GoStr × GoStr)) :
    ∀ r : GoRequest,
      l.foldl (fun r kv =>
          if toLowerStr kv.1 = hostStr then { r with host := kv.2 }
          else { r with header := headerAdd r.header kv.1 kv.2 }) r
        = { r with header := (addCustomHeaders (r.header, r.host) l).1,
                   host := (addCustomHeaders (r.header, r.host) l).2 } := by
  induction l with
  | nil => intro r; rfl
  | cons kv l ih =>
    intro r
    rw [List.foldl_cons]
    by_cases h : toLowerStr kv.1 = hostStr
    · rw [if_pos h, ih]
      simp only [addCustomHeaders, List.foldl_cons, if_pos h]
    · rw [if_neg h, ih]
      simp only [addCustomHeaders, List.foldl_cons, if_neg h]

theorem built_req_eq (c : EndpointClient) (evtCtx : eventContext) :
    c.headers.foldl
      (fun r kv =>
        if toLowerStr kv.1 = hostStr then { r with host := kv.2 }
        else { r with header := headerAdd r.header kv.1 kv.2 })
      (evtCtx.requestHeaders.foldl
        (fun r kv => { r with header := headerAdd r.header kv.1 kv.2 })
        { method := methodPost, url := c.URL, body := evtCtx.requestBody,
          host := [], header := [] })
      = postBuiltRequest c evtCtx := by
  rw [foldl_event_req, foldl_custom_req]
  rfl

/-- `Post` with successful construction, in terms of the built request. -/
theorem Post_none_eq (c : EndpointClient) (evtCtx : eventContext)
    (tr : GoRequest → Except GoError GoResponse) :
    Post c evtCtx none tr =
      match tr (postBuiltRequest c evtCtx) with
      | .error err =>
        { ret := some err, emitted := [(c.cfg.outCh, ⟨⟨err⟩⟩)], handlerCalls := [],
          sentRequest := some (postBuiltRequest c evtCtx), bodyClosed := false,
          debugLogs := 1 }
      | .ok resp =>
        { ret := none, emitted := [], handlerCalls := [(evtCtx, c.URL, resp)],
          sentRequest := some (postBuiltRequest c evtCtx), bodyClosed := true,
          debugLogs := 1 } := by
  show (match tr (c.headers.foldl _ (evtCtx.requestHeaders.foldl _ _)) with
        | .error err => _ | .ok resp => _) = _
  rw [built_req_eq]

/-- `PostV2` with successful construction, in terms of the built request. -/
theorem PostV2_none_eq (c : EndpointClient) (evtCtx : eventContext)
    (tr : GoRequest → Except GoError GoResponse) :
    PostV2 c evtCtx none tr =
      match tr (postBuiltRequest c evtCtx) with
      | .error err =>
        { ret := some err, emitted := [(c.cfg.outCh, ⟨⟨err⟩⟩)], handlerCalls := [],
          sentRequest := some (postBuiltRequest c evtCtx), bodyClosed := false,
          debugLogs := 0 }
      | .ok resp =>
        { ret := none, emitted := [], handlerCalls := [(evtCtx, c.URL, resp)],
          sentRequest := some (postBuiltRequest c evtCtx), bodyClosed := true,
          debugLogs := 0 } := by
  show (match tr (c.headers.foldl _ (evtCtx.requestHeaders.foldl _ _)) with
        | .error err => _ | .ok resp => _) = _
  rw [built_req_eq]

theorem Post_sentRequest (c : EndpointClient) (evtCtx : eventContext)
    (tr : GoRequest → Except GoError GoResponse) :
    (Post c evtCtx none tr).sentRequest = some (postBuiltRequest c evtCtx) := by
  rw [Post_none_eq]
  cases tr (postBuiltRequest c evtCtx) <;> rfl

theorem PostV2_sentRequest (c : EndpointClient) (evtCtx : eventContext)
    (tr : GoRequest → Except GoError GoResponse) :
    (PostV2 c evtCtx none tr).sentRequest = some (postBuiltRequest c evtCtx) := by
  rw [PostV2_none_eq]
  cases tr (postBuiltRequest c evtCtx) <;> rfl

/-!  Value-level characterization of the header merge. -/

/-- The values a key-value list contributes under a key (canonical-key
match), in list order. -/
def collectVals (l : List (GoStr × GoStr)) (k : GoStr) : List GoStr :=
  (l.filter (fun kv => decide (canonicalMIMEHeaderKey kv.1 = canonicalMIMEHeaderKey k))).map
    Prod.snd

theorem mapLookup_headerAppendAt (h : Header) (ck v : GoStr) :
    ∀ k, mapLookup (headerAppendAt h ck v) k =
      if k = ck then some ((mapLookup h ck).getD [] ++ [v]) else mapLookup h k := by
  induction h with
  | nil =>
    intro k
    by_cases hk : k = ck
    · simp [headerAppendAt, mapLookup, hk]
    · have hk2 : ¬ ck = k := fun h' => hk h'.symm
      simp [headerAppendAt, mapLookup, hk, hk2]
  | cons hd tl ih =>
    obtain ⟨a, vs⟩ := hd
    intro k
    by_cases h1 : a = ck
    · by_cases h2 : a = k
      · have hkck : k = ck := by rw [← h2, h1]
        simp [headerAppendAt, mapLookup, h1, h2, hkck]
      · have hkck : ¬ k = ck := fun hc => h2 (by rw [h1, ← hc])
        have h2' : ¬ ck = k := fun hc => h2 (by rw [h1, hc])
        simp [headerAppendAt, mapLookup, h1, h2, h2', hkck]
    · by_cases h2 : a = k
      · have hkck : ¬ k = ck := fun hc => h1 (by rw [h2, hc])
        simp [headerAppendAt, mapLookup, h1, h2, hkck]
      · simp [headerAppendAt, mapLookup, h1, h2, ih]

theorem headerValues_headerAdd (h : Header) (k' v k : GoStr) :
    headerValues (headerAdd h k' v) k =
      headerValues h k ++
        (if canonicalMIMEHeaderKey k' = canonicalMIMEHeaderKey k then [v] else []) := by
  unfold headerValues headerAdd
  rw [mapLookup_headerAppendAt]
  by_cases hc : canonicalMIMEHeaderKey k = canonicalMIMEHeaderKey k'
  · simp [hc]
  · have hc2 : ¬ canonicalMIMEHeaderKey k' = canonicalMIMEHeaderKey k :=
      fun h' => hc h'.symm
    simp [hc, hc2]

theorem headerValues_addEventHeaders (l : List (GoStr × GoStr)) :
    ∀ (h : Header) (k : GoStr),
      headerValues (addEventHeaders h l) k = headerValues h k ++ collectVals l k := by
  induction l with
  | nil => intro h k; simp [addEventHeaders, collectVals]
  | cons kv l ih =>
    intro h k
    rw [show addEventHeaders h (kv :: l) = addEventHeaders (headerAdd h kv.1 kv.2) l
          from rfl,
        ih, headerValues_headerAdd]
    by_cases hc : canonicalMIMEHeaderKey kv.1 = canonicalMIMEHeaderKey k <;>
      simp [collectVals, hc, List.filter_cons]

theorem addCustomHeaders_append (s : Header × GoStr) (l₁ l₂ : List (GoStr × GoStr)) :
    addCustomHeaders s (l₁ ++ l₂) = addCustomHeaders (addCustomHeaders s l₁) l₂ := by
  unfold addCustomHeaders
  rw [List.foldl_append]

/-- The client headers the custom-header loop adds to the header map (all
but the ones redirected to `Host`). -/
def nonHostHeader (kv : GoStr × GoStr) : Bool :=
  ! decide (toLowerStr kv.1 = hostStr)

theorem addCustomHeaders_cons_host {kv : GoStr × GoStr}
    (h : toLowerStr kv.1 = hostStr) (s : Header × GoStr)
    (l : List (GoStr × GoStr)) :
    addCustomHeaders s (kv :: l) = addCustomHeaders (s.1, kv.2) l := by
  unfold addCustomHeaders
  simp only [List.foldl_cons]
  rw [if_pos h]

theorem addCustomHeaders_cons_other {kv : GoStr × GoStr}
    (h : ¬ toLowerStr kv.1 = hostStr) (s : Header × GoStr)
    (l : List (GoStr × GoStr)) :
    addCustomHeaders s (kv :: l) = addCustomHeaders (headerAdd s.1 kv.1 kv.2, s.2) l := by
  unfold addCustomHeaders
  simp only [List.foldl_cons]
  rw [if_neg h]

theorem addCustomHeaders_fst (l : List (GoStr × GoStr)) :
    ∀ s : Header × GoStr,
      (addCustomHeaders s l).1 = addEventHeaders s.1 (l.filter nonHostHeader) := by
  induction l with
  | nil => intro s; rfl
  | cons kv l ih =>
    intro s
    by_cases h : toLowerStr kv.1 = hostStr
    · rw [addCustomHeaders_cons_host h, ih]
      have hf : List.filter nonHostHeader (kv :: l) = List.filter nonHostHeader l := by
        simp [List.filter_cons, nonHostHeader, h]
      rw [hf]
    · rw [addCustomHeaders_cons_other h, ih]
      have hf : List.filter nonHostHeader (kv :: l) = kv :: List.filter nonHostHeader l := by
        simp [List.filter_cons, nonHostHeader, h]
      rw [hf]
      rfl

theorem addCustomHeaders_snd_of_no_host (l : List (GoStr × GoStr)) :
    ∀ s : Header × GoStr, (∀ kv ∈ l, ¬ toLowerStr kv.1 = hostStr) →
      (addCustomHeaders s l).2 = s.2 := by
  induction l with
  | nil => intro s _; rfl
  | cons kv l ih =>
    intro s hl
    have hkv : ¬ toLowerStr kv.1 = hostStr := hl kv (List.mem_cons_self kv l)
    rw [addCustomHeaders_cons_other hkv]
    exact ih _ (fun x hx => hl x (List.mem_cons_of_mem kv hx))

theorem addCustomHeaders_host_pair (pre post' : List (GoStr × GoStr)) (k v : GoStr)
    (s : Header × GoStr) (hk : toLowerStr k = hostStr)
    (hlast : ∀ kv ∈ post', ¬ toLowerStr kv.1 = hostStr) :
    (addCustomHeaders s (pre ++ (k, v) :: post')).2 = v ∧
    (addCustomHeaders s (pre ++ (k, v) :: post')).1
      = (addCustomHeaders s (pre ++ post')).1 := by
  constructor
  · rw [addCustomHeaders_append, addCustomHeaders_cons_host hk,
        addCustomHeaders_snd_of_no_host post' _ hlast]
  · rw [addCustomHeaders_append, addCustomHeaders_cons_host hk,
        addCustomHeaders_append]
    simp only [addCustomHeaders_fst]

/-!  Claim theorems: delivery. -/

/-- C2 (amended): on a key collision between the event context's request
headers and the client's sanitized headers, `Post` does not replace the
event's value — `req.Header.Add` appends — so the outgoing request carries
the event values first and the client values after them: for every key, the
values under it are exactly the event contributions followed by the
non-Host client contributions, in order. -/
theorem Post_header_merge (c : EndpointClient) (evtCtx : eventContext) (k : GoStr)
    (tr : GoRequest → Except GoError GoResponse) :
    (Post c evtCtx none tr).sentRequest.map (fun r => headerValues r.header k)
      = some (collectVals evtCtx.requestHeaders k ++
          collectVals (c.headers.filter nonHostHeader) k) := by
  rw [Post_sentRequest]
  simp only [Option.map_some']
  unfold postBuiltRequest
  simp only [addCustomHeaders_fst, headerValues_addEventHeaders]
  simp [headerValues, mapLookup]

/-- C2 counterexample: with event header `X-Foo: event` and client header
`X-Foo: client`, the outgoing request carries both values, the event's
first — the client's value is not "the one carried" for the key and does
not replace the event's value. -/
theorem Post_header_collision_counterexample :
    (Post
        { URL := "http://localhost/".toList,
          headers := [("X-Foo".toList, "client".toList)],
          connect := false, events := [], cfg := emptyConfig,
          isEventDestination := false }
        { requestBody := [], requestHeaders := [("X-Foo".toList, "event".toList)] }
        none (fun _ => Except.ok ⟨0⟩)).sentRequest.map
        (fun r => headerValues r.header "X-Foo".toList)
      = some ["event".toList, "client".toList] ∧
    (["event".toList, "client".toList] : List GoStr) ≠ ["client".toList] := by
  constructor
  · decide
  · decide

/-- C4: a client header whose key lower-cases to "host" is redirected to the
request's `Host` field by both `Post` and `PostV2` — the field is set to its
value (the pair being the last such header in iteration order) and the
request's header map is exactly the one built without that pair, so residing
in `Host` and residing in the header map are mutually exclusive. -/
theorem Post_host_redirect (url : GoStr) (pre post' : List (GoStr × GoStr))
    (k v : GoStr) (conn ied : Bool) (evs : List (GoStr × Bool))
    (cfg : EndpointConfig) (evtCtx : eventContext)
    (tr tr' : GoRequest → Except GoError GoResponse)
    (hk : toLowerStr k = hostStr)
    (hlast : ∀ kv ∈ post', ¬ toLowerStr kv.1 = hostStr) :
    ((Post ⟨url, pre ++ (k, v) :: post', conn, evs, cfg, ied⟩ evtCtx none tr).sentRequest.map
        GoRequest.host = some v ∧
      (Post ⟨url, pre ++ (k, v) :: post', conn, evs, cfg, ied⟩ evtCtx none tr).sentRequest.map
        GoRequest.header
        = (Post ⟨url, pre ++ post', conn, evs, cfg, ied⟩ evtCtx none tr).sentRequest.map
            GoRequest.header) ∧
    ((PostV2 ⟨url, pre ++ (k, v) :: post', conn, evs, cfg, ied⟩ evtCtx none tr').sentRequest.map
        GoRequest.host = some v ∧
      (PostV2 ⟨url, pre ++ (k, v) :: post', conn, evs, cfg, ied⟩ evtCtx none tr').sentRequest.map
        GoRequest.header
        = (PostV2 ⟨url, pre ++ post', conn, evs, cfg, ied⟩ evtCtx none tr').sentRequest.map
            GoRequest.header) := by
  have hmain := addCustomHeaders_host_pair pre post' k v
    (addEventHeaders [] evtCtx.requestHeaders, []) hk hlast
  refine ⟨⟨?_, ?_⟩, ?_, ?_⟩ <;>
    simp only [Post_sentRequest, PostV2_sentRequest, Option.map_some', postBuiltRequest] <;>
    simp [hmain.1, hmain.2]

/-- Witness for C4: a client with headers `X-A: 1`, `Host: example.com`,
`X-B: 2` posts with `Host` set to `example.com`. -/
theorem Post_host_redirect_witness :
    (Post ⟨"http://localhost/".toList,
        [("X-A".toList, "1".toList), ("Host".toList, "example.com".toList),
         ("X-B".toList, "2".toList)],
        false, [], emptyConfig, false⟩
      ⟨[], []⟩ none (fun _ => Except.ok ⟨0⟩)).sentRequest.map GoRequest.host
      = some "example.com".toList := by
  have h := Post_host_redirect "http://localhost/".toList
    [("X-A".toList, "1".toList)] [("X-B".toList, "2".toList)]
    "Host".toList "example.com".toList false false [] emptyConfig
    ⟨[], []⟩ (fun _ => Except.ok ⟨0⟩) (fun _ => Except.ok ⟨0⟩)
    (by decide) (by decide)
  exact h.1.1

/-- C3: `Post` returns nil exactly when construction and transport both
succeed; the output-channel send happens exactly on a transport failure and
is the single record wrapping that failure (none on construction failure or
success); on success the response handler is invoked exactly once with
`(evtCtx, c.URL, resp)` and the response body is closed. -/
theorem Post_contract (c : EndpointClient) (evtCtx : eventContext)
    (newRequestErr : Option GoError) (tr : GoRequest → Except GoError GoResponse) :
    ((Post c evtCtx newRequestErr tr).ret = none ↔
      newRequestErr = none ∧ ∃ resp, tr (postBuiltRequest c evtCtx) = Except.ok resp) ∧
    ((Post c evtCtx newRequestErr tr).emitted =
      match newRequestErr, tr (postBuiltRequest c evtCtx) with
      | none, Except.error e => [(c.cfg.outCh, ⟨⟨e⟩⟩)]
      | _, _ => []) ∧
    (∀ resp, newRequestErr = none → tr (postBuiltRequest c evtCtx) = Except.ok resp →
      (Post c evtCtx newRequestErr tr).ret = none ∧
      (Post c evtCtx newRequestErr tr).handlerCalls = [(evtCtx, c.URL, resp)] ∧
      (Post c evtCtx newRequestErr tr).bodyClosed = true) := by
  cases newRequestErr with
  | some e =>
    refine ⟨?_, ?_, ?_⟩
    · simp [Post]
    · cases tr (postBuiltRequest c evtCtx) <;> simp [Post]
    · intro resp hne
      cases hne
  | none =>
    cases htr : tr (postBuiltRequest c evtCtx) with
    | error e =>
      refine ⟨?_, ?_, ?_⟩ <;> simp [Post_none_eq, htr]
    | ok resp0 =>
      refine ⟨?_, ?_, ?_⟩ <;> simp [Post_none_eq, htr]

/-- Witness for C3: against a transport that succeeds, `Post` returns nil,
invokes the handler exactly once with the event context, the client URL and
the response, and closes the body. -/
theorem Post_contract_witness :
    (Post ⟨"http://localhost/".toList, [], false, [], emptyConfig, false⟩
        ⟨"b".toList, []⟩ none (fun _ => Except.ok ⟨7⟩)).ret = none ∧
    (Post ⟨"http://localhost/".toList, [], false, [], emptyConfig, false⟩
        ⟨"b".toList, []⟩ none (fun _ => Except.ok ⟨7⟩)).handlerCalls
      = [(⟨"b".toList, []⟩, "http://localhost/".toList, ⟨7⟩)] ∧
    (Post ⟨"http://localhost/".toList, [], false, [], emptyConfig, false⟩
        ⟨"b".toList, []⟩ none (fun _ => Except.ok ⟨7⟩)).bodyClosed = true :=
  (Post_contract ⟨"http://localhost/".toList, [], false, [], emptyConfig, false⟩
      ⟨"b".toList, []⟩ none (fun _ => Except.ok ⟨7⟩)).2.2 ⟨7⟩ rfl rfl

/-- C9: `PostV2` and `Post`, run with the same transport behaviour, produce
identical outcomes — same built request, same return value, same channel
sends, same handler invocations, same body release — except that `Post`
writes one debug log line and `PostV2` none (and, per the source, `Post`
draws its transport from `c.cfg.HTTPClient` while `PostV2` uses the
process-wide `http.DefaultClient`; both are the `tr` parameter here). -/
theorem PostV2_refines_Post (c : EndpointClient) (evtCtx : eventContext)
    (newRequestErr : Option GoError) (tr : GoRequest → Except GoError GoResponse) :
    Post c evtCtx newRequestErr tr
        = { PostV2 c evtCtx newRequestErr tr with debugLogs := 1 } ∧
      (PostV2 c evtCtx newRequestErr tr).debugLogs = 0 ∧
      (Post c evtCtx newRequestErr tr).debugLogs = 1 := by
  cases newRequestErr with
  | some e => exact ⟨rfl, rfl, rfl⟩
  | none =>
    rw [Post_none_eq, PostV2_none_eq]
    cases tr (postBuiltRequest c evtCtx) <;> exact ⟨rfl, rfl, rfl⟩

/-!  Claim theorems: construction and defaulting. -/

theorem NewEndpointClient_eq (url : GoStr) (headers : List GoStr) (connect : Bool)
    (events : List GoStr) (ied : Bool) (cfg0 : Option EndpointConfig)
    (hm : List (GoStr × GoStr)) (hsan : convertToMapAndSanitize headers = some hm) :
    NewEndpointClient url headers connect events ied cfg0 = some
      { URL := url, headers := hm, connect := connect,
        events := convertToMap events,
        cfg := { httpClient := some ((cfg0.getD emptyConfig).httpClient.getD defaultHTTPClient),
                 log := some ((cfg0.getD emptyConfig).log.getD defaultLogger),
                 responseHandler := some ((cfg0.getD emptyConfig).responseHandler.getD .noop),
                 outCh := (cfg0.getD emptyConfig).outCh },
        isEventDestination := ied } := by
  cases cfg0 <;> (unfold NewEndpointClient; rw [hsan]) <;> rfl

/-- C8: `NewEndpointClient` builds an empty configuration bundle when none
is supplied, fills each unset field with its default — a logger writing to
`io.Discard`, an `http.Client` with a 30-second timeout and the
use-last-response (no auto-redirect) policy, a no-op response handler —
keeps every caller-supplied field as supplied, and stores the normalized
header map and event set computed at construction. -/
theorem NewEndpointClient_defaults (url : GoStr) (headers : List GoStr)
    (connect : Bool) (events : List GoStr) (ied : Bool)
    (cfg0 : Option EndpointConfig) (hm : List (GoStr × GoStr))
    (hsan : convertToMapAndSanitize headers = some hm) :
    ∃ c, NewEndpointClient url headers connect events ied cfg0 = some c ∧
      c.URL = url ∧ c.headers = hm ∧ c.events = convertToMap events ∧
      c.connect = connect ∧ c.isEventDestination = ied ∧
      ((cfg0.getD emptyConfig).log = none → c.cfg.log = some defaultLogger) ∧
      (∀ l, (cfg0.getD emptyConfig).log = some l → c.cfg.log = some l) ∧
      ((cfg0.getD emptyConfig).httpClient = none →
        c.cfg.httpClient = some defaultHTTPClient) ∧
      (∀ hc, (cfg0.getD emptyConfig).httpClient = some hc →
        c.cfg.httpClient = some hc) ∧
      ((cfg0.getD emptyConfig).responseHandler = none →
        c.cfg.responseHandler = some ResponseHandler.noop) ∧
      (∀ rh, (cfg0.getD emptyConfig).responseHandler = some rh →
        c.cfg.responseHandler = some rh) ∧
      defaultHTTPClient.timeout = 30 * timeSecond ∧
      defaultHTTPClient.checkRedirect = RedirectPolicy.useLastResponse ∧
      defaultLogger.out = GoWriter.discard := by
  refine ⟨_, NewEndpointClient_eq url headers connect events ied cfg0 hm hsan,
    rfl, rfl, rfl, rfl, rfl, ?_, ?_, ?_, ?_, ?_, ?_, rfl, rfl, rfl⟩
  · intro h; rw [h]; rfl
  · intro l h; rw [h]; rfl
  · intro h; rw [h]; rfl
  · intro hc h; rw [h]; rfl
  · intro h; rw [h]; rfl
  · intro rh h; rw [h]; rfl

/-- Witness for C8: constructing with no bundle yields all three defaults. -/
theorem NewEndpointClient_defaults_witness :
    ∃ c, NewEndpointClient "http://localhost/".toList ["X-A: 1".toList] false
        ["*".toList] false none = some c ∧
      c.cfg.log = some defaultLogger ∧
      c.cfg.httpClient = some defaultHTTPClient ∧
      c.cfg.responseHandler = some ResponseHandler.noop := by
  obtain ⟨c, hc, -, -, -, -, -, hlog, -, http', -, hrh, -⟩ :=
    NewEndpointClient_defaults "http://localhost/".toList ["X-A: 1".toList] false
      ["*".toList] false none [("X-A".toList, "1".toList)] (by decide)
  exact ⟨c, hc, hlog rfl, http' rfl, hrh rfl⟩

/-- C10: `NewEndpointClient` supplies no default for the output channel:
when the supplied bundle has none (or no bundle is supplied), the
constructed client's configuration keeps a nil output channel even though
logger, HTTP client and response handler are all defaulted, and the
transport-failure path of `Post`/`PostV2` then attempts its send on that
nil channel (the emitted record's channel is `none`). -/
theorem NewEndpointClient_outCh_not_defaulted (url : GoStr) (headers : List GoStr)
    (connect : Bool) (events : List GoStr) (ied : Bool)
    (cfg0 : Option EndpointConfig) (hm : List (GoStr × GoStr))
    (hsan : convertToMapAndSanitize headers = some hm)
    (hout : (cfg0.getD emptyConfig).outCh = none) :
    ∃ c, NewEndpointClient url headers connect events ied cfg0 = some c ∧
      c.cfg.outCh = none ∧
      c.cfg.log.isSome = true ∧ c.cfg.httpClient.isSome = true ∧
      c.cfg.responseHandler.isSome = true ∧
      ∀ (evtCtx : eventContext) (e : GoError)
        (tr : GoRequest → Except GoError GoResponse),
        tr (postBuiltRequest c evtCtx) = Except.error e →
        (Post c evtCtx none tr).emitted = [(none, ⟨⟨e⟩⟩)] ∧
        (PostV2 c evtCtx none tr).emitted = [(none, ⟨⟨e⟩⟩)] := by
  refine ⟨_, NewEndpointClient_eq url headers connect events ied cfg0 hm hsan,
    hout, rfl, rfl, rfl, ?_⟩
  intro evtCtx e tr htr
  rw [Post_none_eq, PostV2_none_eq, htr]
  exact ⟨by rw [hout], by rw [hout]⟩

/-- Witness for C10: constructing with no bundle and hitting a transport
failure sends the error record on the nil channel. -/
theorem NewEndpointClient_outCh_witness :
    ∃ c, NewEndpointClient "http://localhost/".toList ["X-A: 1".toList] false
        ["*".toList] false none = some c ∧
      c.cfg.outCh = none ∧
      (Post c ⟨[], []⟩ none (fun _ => Except.error 3)).emitted = [(none, ⟨⟨3⟩⟩)] := by
  obtain ⟨c, hc, hout, -, -, -, hpost⟩ :=
    NewEndpointClient_outCh_not_defaulted "http://localhost/".toList
      ["X-A: 1".toList] false ["*".toList] false none
      [("X-A".toList, "1".toList)] (by decide) rfl
  exact ⟨c, hc, hout, (hpost ⟨[], []⟩ 3 (fun _ => Except.error 3) rfl).1⟩

end Proxy
